import Mathlib

/-!
Shallow embedding of the codex TUI core covered by the specification:
  * `src/codex-rs/tui/src/app.rs` — application controller event handling,
    the resumed-history renderer and `strip_wrappers`;
  * `src/codex-rs/tui/src/session_meta.rs` — the log scanner
    (`read_session_stats`);
  * `src/codex-rs/tui2/src/status_line.rs` — the status-line pipeline.

Conventions of the embedding:
  * Rust strings are modelled as `String` / `List Char`; indices are
    character indices, which coincide with Rust's byte indices on the ASCII
    inputs used throughout (all tags and concrete inputs are ASCII).
  * Rust `panic!` sites (out-of-order slice indices) are modelled explicitly
    with an error value rather than hidden.
  * Styling of `ratatui` lines (colors, dim, italic) is erased: a rendered
    line is the concatenation of its spans' text contents.
  * The file system is modelled by passing the optional contents of the
    relevant files directly.
-/

namespace Codex

/-- ASCII whitespace test used to model Rust's `str::trim` on the ASCII
inputs of interest. -/
def isWsChar (c : Char) : Bool :=
  c == ' ' || c == '\t' || c == '\n' || c == '\r'

/-- Model of Rust `str::trim`: drop leading and trailing whitespace. -/
def trimChars (s : List Char) : List Char :=
  ((s.dropWhile isWsChar).reverse.dropWhile isWsChar).reverse

/-- Model of Rust `str::find(pat)`: index of the first occurrence of `pat`
as a contiguous subsequence, if any. -/
def findSub (pat : List Char) : List Char → Option Nat
  | [] => if pat.isEmpty then some 0 else none
  | c :: rest =>
    if pat.isPrefixOf (c :: rest) then some 0
    else (findSub pat rest).map (· + 1)

/-- Model of Rust `str::contains(pat)`. -/
def containsSub (pat hay : List Char) : Bool :=
  (findSub pat hay).isSome

def envTag : List Char := "<environment_context>".toList
def uiOpen : List Char := "<user_instructions>".toList
def uiClose : List Char := "</user_instructions>".toList
def uxOpen : List Char := "<user_interactions>".toList
def uxClose : List Char := "</user_interactions>".toList

/-- One unwrap step of `strip_wrappers` (`app.rs:647-658`): when both the
opening and the closing tag occur in `t`, Rust takes the slice
`&t[start + open.len() .. end]` and trims it.  A Rust range slice with
`start > end` panics, which is modelled by `Except.error ()`. -/
def unwrapStep (opn cls t : List Char) : Except Unit (List Char) :=
  match findSub opn t, findSub cls t with
  | some st, some en =>
    if st + opn.length ≤ en then
      Except.ok (trimChars ((t.drop (st + opn.length)).take (en - (st + opn.length))))
    else Except.error ()
  | _, _ => Except.ok t

/-- Result of `strip_wrappers` (`app.rs:640-660`) with the panic made
explicit: `dropped` is Rust's `None` (environment-context messages),
`ok s` is `Some(s)`, and `panicked` marks the out-of-bounds slice. -/
inductive StripResult where
  | panicked
  | dropped
  | ok (s : String)
deriving DecidableEq, Repr

/-- Model of `strip_wrappers` (`app.rs:640-660`): trim, drop messages
containing `<environment_context>`, then unwrap `<user_instructions>` and
`<user_interactions>` blocks in turn. -/
def stripWrappersR (s : String) : StripResult :=
  let t := trimChars s.toList
  if containsSub envTag t then .dropped
  else
    match unwrapStep uiOpen uiClose t with
    | .error _ => .panicked
    | .ok t1 =>
      match unwrapStep uxOpen uxClose t1 with
      | .error _ => .panicked
      | .ok t2 => .ok t2.asString

/-! ## Resumed-history renderer (`app.rs:403-616`)

Data model of `codex_protocol::models::ResponseItem` restricted to the
fields the renderer reads.  A rendered `ratatui` line is modelled as the
concatenation of its spans' text (styling erased), so e.g. the tool line
`["tool", " ", "server/tool", " ", "✓"]` is the string
`"tool server/tool ✓"`. -/

structure FunctionCallOutputPayload where
  content : String
  success : Option Bool
deriving DecidableEq, Repr

inductive ContentItem where
  | inputText (text : String)
  | outputText (text : String)
  | other
deriving DecidableEq, Repr

inductive LocalShellAction where
  | exec (command : List String)
  | otherAction
deriving DecidableEq, Repr

inductive ResponseItem where
  | message (role : String) (content : List ContentItem)
  | reasoning
  | localShellCall (call_id : Option String) (action : LocalShellAction)
  | functionCall (name : String) (arguments : String) (call_id : String)
  | functionCallOutput (call_id : String) (output : FunctionCallOutputPayload)
  | otherItem
deriving DecidableEq, Repr

/-- Pre-indexing of outputs by `call_id` (`app.rs:484-491`): a `HashMap`
filled by one pass over the entries, later inserts overwriting earlier
ones, so a lookup returns the payload of the **last**
`FunctionCallOutput` bearing that `call_id`. -/
def outputsByCall (entries : List ResponseItem) (cid : String) :
    Option FunctionCallOutputPayload :=
  entries.foldl
    (fun acc it =>
      match it with
      | .functionCallOutput c o => if c = cid then some o else acc
      | _ => acc)
    none

/-- Model of `name.split_once("__")` (`app.rs:544-547`): `(server, tool)` from the
qualified tool name, or `(name, "")` when no `"__"` occurs. -/
def splitServerTool (name : String) : String × String :=
  match findSub "__".toList name.toList with
  | some i =>
    ((name.toList.take i).asString, (name.toList.drop (i + 2)).asString)
  | none => (name, "")

/-- Concatenation of a message's `InputText`/`OutputText` content parts
with `\n` separators (`app.rs:495-506`); other content kinds are ignored. -/
def concatContent (content : List ContentItem) : String :=
  content.foldl
    (fun acc c =>
      match c with
      | .inputText t | .outputText t =>
        if acc.isEmpty then acc ++ t else acc ++ "\n" ++ t
      | .other => acc)
    ""

/-- The dim truncation note appended after 18 rendered markdown lines
(`app.rs:527-529`). -/
def truncationNote : String := "… truncated; press Ctrl-T for full transcript"

/-- Constant `MAX_LINES` (`app.rs:521`). -/
def maxLines : Nat := 18

/-- The lines contributed by one entry of the walk in
`render_lines_for_resumed_history` (`app.rs:493-613`).

`md` models `append_markdown` (the markdown pipeline is an external
collaborator of this slice, so the renderer is parametric in it) and `up`
models `history_cell::new_user_prompt(..).display_lines()`.  `outputs` is
the pre-built `call_id ↦ payload` index.  `Except.error ()` propagates a
panic from `strip_wrappers`.

The walk is a per-item transformation: the only state threaded through
`out` by the Rust code is its length, used to truncate exactly the lines
appended for the current message, so the whole walk is the concatenation
of per-item line blocks. -/
def renderItem (md : String → List String) (up : String → List String)
    (outputs : String → Option FunctionCallOutputPayload) :
    ResponseItem → Except Unit (List String)
  | .message role content =>
    let text := concatContent content
    match stripWrappersR text with
    | .panicked => .error ()
    | .dropped => .ok []          -- `unwrap_or_default` gives "" which is skipped
    | .ok t =>
      if t.isEmpty then .ok []
      else if role = "user" then .ok (up t)
      else
        let body := md t
        .ok (["", "codex"] ++
          (if body.length > maxLines then
            body.take maxLines ++ [truncationNote]
          else body))
  | .functionCall name _arguments call_id =>
    let (server, tool) := splitServerTool name
    match outputs call_id with
    | some payload =>
      let mark := if payload.success.getD true then "✓" else "✗"
      .ok ["", "tool " ++ server ++ "/" ++ tool ++ " " ++ mark]
    | none => .ok []              -- falls through every later `if let`: nothing emitted
  | .reasoning => .ok ["", "thinking"]
  | .localShellCall call_id action =>
    match action with
    | .exec command =>
      let payload := (call_id.bind outputs).getD ⟨"", some true⟩
      let mark := if payload.success.getD true then "✓" else "✗"
      .ok ["", "  " ++ mark ++ " " ++ "⌨️ " ++ String.intercalate " " command]
    | .otherAction => .ok []
  | .functionCallOutput _call_id output =>
    if output.content.isEmpty then .ok []
    else .ok (["", "codex"] ++ md output.content)
  | .otherItem => .ok []

/-- The entry walk of `render_lines_for_resumed_history` with
`resume_path = None` (`app.rs:493-613`); the recap-header branch
(`app.rs:417-482`) is only taken for `Some` resume paths and is not part
of the walk. -/
def renderWalk (md up : String → List String) (entries : List ResponseItem) :
    Except Unit (List String) :=
  (entries.mapM (renderItem md up (outputsByCall entries))).map List.flatten

/-! ## JSON values and parsing

Model of `serde_json::Value` / `serde_json::from_str` sufficient for the
log scanner and sidecar handling.  Numbers keep the sign, the integer
mantissa and whether the literal was frac/exponent free, which determines
`as_u64`.  Object member lists keep insertion order; lookups take the last
binding, matching map-insert overwrite semantics. -/

inductive Json where
  | jnull
  | jbool (b : Bool)
  | jnum (neg : Bool) (mant : Nat) (intLike : Bool)
  | jstr (s : List Char)
  | jarr (elems : List Json)
  | jobj (fields : List (List Char × Json))

/-- Skip JSON whitespace (space, tab, newline, carriage return). -/
def skipWs : List Char → List Char
  | [] => []
  | c :: rest => if isWsChar c then skipWs rest else c :: rest

def digitsToNat (ds : List Char) : Nat :=
  ds.foldl (fun acc c => acc * 10 + (c.toNat - '0'.toNat)) 0

def hexVal (c : Char) : Option Nat :=
  if c.isDigit then some (c.toNat - '0'.toNat)
  else if 'a' ≤ c ∧ c ≤ 'f' then some (c.toNat - 'a'.toNat + 10)
  else if 'A' ≤ c ∧ c ≤ 'F' then some (c.toNat - 'A'.toNat + 10)
  else none

/-- Parse a JSON string body (after the opening quote) up to the closing
quote, handling escapes; raw control characters are rejected. -/
def parseStrBody : Nat → List Char → Option (List Char × List Char)
  | 0, _ => none
  | _ + 1, [] => none
  | fuel + 1, c :: rest =>
    if c = '"' then some ([], rest)
    else if c = '\\' then
      match rest with
      | [] => none
      | e :: rest2 =>
        if e = 'u' then
          match rest2 with
          | h1 :: h2 :: h3 :: h4 :: rest3 =>
            match hexVal h1, hexVal h2, hexVal h3, hexVal h4 with
            | some a, some b, some c2, some d =>
              (parseStrBody fuel rest3).map
                (fun p => (Char.ofNat (((a * 16 + b) * 16 + c2) * 16 + d) :: p.1, p.2))
            | _, _, _, _ => none
          | _ => none
        else
          let ch? : Option Char :=
            if e = '"' then some '"'
            else if e = '\\' then some '\\'
            else if e = '/' then some '/'
            else if e = 'b' then some (Char.ofNat 8)
            else if e = 'f' then some (Char.ofNat 12)
            else if e = 'n' then some '\n'
            else if e = 'r' then some '\r'
            else if e = 't' then some '\t'
            else none
          match ch? with
          | some ch => (parseStrBody fuel rest2).map (fun p => (ch :: p.1, p.2))
          | none => none
    else if c.toNat < 32 then none
    else (parseStrBody fuel rest).map (fun p => (c :: p.1, p.2))

/-- Parse a JSON number literal: `-? int frac? exp?` with no leading
zeros.  Only the integer mantissa is retained; `intLike` records the
absence of fraction and exponent parts. -/
def parseNumber (cs : List Char) : Option (Json × List Char) :=
  let p : Bool × List Char :=
    match cs with
    | '-' :: r => (true, r)
    | _ => (false, cs)
  let neg := p.1
  let intDigits := p.2.takeWhile Char.isDigit
  let rest1 := p.2.dropWhile Char.isDigit
  if intDigits.isEmpty then none
  else if intDigits.length > 1 && intDigits.headD '0' = '0' then none
  else
    let mant := digitsToNat intDigits
    let fracStep : Option (Bool × List Char) :=
      match rest1 with
      | '.' :: r2 =>
        let fds := r2.takeWhile Char.isDigit
        if fds.isEmpty then none else some (true, r2.dropWhile Char.isDigit)
      | _ => some (false, rest1)
    match fracStep with
    | none => none
    | some (hasFrac, rest2) =>
      let expStep : Option (Bool × List Char) :=
        match rest2 with
        | e :: r3 =>
          if e = 'e' ∨ e = 'E' then
            let r4 := match r3 with
              | s :: r5 => if s = '+' ∨ s = '-' then r5 else r3
              | [] => r3
            let eds := r4.takeWhile Char.isDigit
            if eds.isEmpty then none else some (true, r4.dropWhile Char.isDigit)
          else some (false, rest2)
        | [] => some (false, rest2)
      match expStep with
      | none => none
      | some (hasExp, rest3) =>
        some (.jnum neg mant (!hasFrac && !hasExp), rest3)

mutual

/-- Parse one JSON value (fuel-indexed recursive descent). -/
def parseVal : Nat → List Char → Option (Json × List Char)
  | 0, _ => none
  | fuel + 1, cs =>
    match skipWs cs with
    | [] => none
    | c :: rest =>
      if c = 'n' then
        if "ull".toList.isPrefixOf rest then some (.jnull, rest.drop 3) else none
      else if c = 't' then
        if "rue".toList.isPrefixOf rest then some (.jbool true, rest.drop 3) else none
      else if c = 'f' then
        if "alse".toList.isPrefixOf rest then some (.jbool false, rest.drop 4) else none
      else if c = '"' then
        (parseStrBody (fuel + 1) rest).map (fun p => (.jstr p.1, p.2))
      else if c = '[' then
        match skipWs rest with
        | ']' :: r2 => some (.jarr [], r2)
        | cs2 => (parseArrElems fuel cs2).map (fun p => (.jarr p.1, p.2))
      else if c = '{' then
        match skipWs rest with
        | '}' :: r2 => some (.jobj [], r2)
        | cs2 => (parseObjMembers fuel cs2).map (fun p => (.jobj p.1, p.2))
      else if c = '-' ∨ c.isDigit then parseNumber (c :: rest)
      else none

/-- Parse the elements of a non-empty JSON array up to `]`. -/
def parseArrElems : Nat → List Char → Option (List Json × List Char)
  | 0, _ => none
  | fuel + 1, cs =>
    match parseVal fuel cs with
    | none => none
    | some (v, rest) =>
      match skipWs rest with
      | ',' :: r2 => (parseArrElems fuel r2).map (fun p => (v :: p.1, p.2))
      | ']' :: r2 => some ([v], r2)
      | _ => none

/-- Parse the members of a non-empty JSON object up to `}`. -/
def parseObjMembers : Nat → List Char → Option (List (List Char × Json) × List Char)
  | 0, _ => none
  | fuel + 1, cs =>
    match skipWs cs with
    | '"' :: rest =>
      match parseStrBody (fuel + 1) rest with
      | none => none
      | some (key, r2) =>
        match skipWs r2 with
        | ':' :: r3 =>
          match parseVal fuel r3 with
          | none => none
          | some (v, r4) =>
            match skipWs r4 with
            | ',' :: r5 => (parseObjMembers fuel r5).map (fun p => ((key, v) :: p.1, p.2))
            | '}' :: r5 => some ([(key, v)], r5)
            | _ => none
        | _ => none
    | _ => none

end

/-- Model of `serde_json::from_str::<Value>`: parse one value and require
only trailing whitespace. -/
def jsonFromStr (s : String) : Option Json :=
  match parseVal (2 * s.length + 2) s.toList with
  | some (v, rest) => if (skipWs rest).isEmpty then some v else none
  | none => none

/-- Model of `Value::get(key)` on objects; later duplicate members overwrite
earlier ones, as with map insertion. -/
def jGet (j : Json) (key : String) : Option Json :=
  match j with
  | .jobj fields =>
    fields.foldl (fun acc kv => if kv.1 = key.toList then some kv.2 else acc) none
  | _ => none

/-- Model of `Value::as_str`. -/
def jAsStr : Json → Option String
  | .jstr s => some s.asString
  | _ => none

/-- Model of `Value::as_u64`: some only for integer literals (no fraction or
exponent), non-negative, within `u64` range. -/
def jAsU64 : Json → Option Nat
  | .jnum neg mant intLike =>
    if intLike && (!neg || mant = 0) && mant < 2 ^ 64 then some mant else none
  | _ => none

/-! ## Log scanner (`session_meta.rs`)

`read_session_stats` is embedded with the file system abstracted away:
the optional contents of the sidecar `<log>.meta.json` and of the log file
stand in for `fs::read` (a `none` content is a failed read).  Contents are
modelled as character sequences; the tail-window arithmetic is performed
in characters, which coincides with Rust's byte counts on the ASCII inputs
used here (on such inputs the `from_utf8` check always succeeds). -/

structure SessionStats where
  message_count : Option Nat
deriving DecidableEq, Repr

/-- Rust's `u32` saturating increment used for the derived item counter
(`session_meta.rs:55`). -/
def satAddOne (n : Nat) : Nat := min (n + 1) (2 ^ 32 - 1)

/-- Modelled from the spec: `serde_json::from_value::<ResponseItem>`
succeeds (`session_meta.rs:54`).  The `ResponseItem` deserializer lives in
`codex_protocol`, outside this repository slice; per §3 of the spec a log
item is a tagged variant with one of the five item kinds, so the model
accepts a JSON object whose `"type"` tag is one of those kinds. -/
def isResponseItemJson (v : Json) : Bool :=
  match (jGet v "type").bind jAsStr with
  | some t =>
    t = "message" || t = "reasoning" || t = "local_shell_call" ||
      t = "function_call" || t = "function_call_output"
  | none => false

/-- Test `v.get("record_type").and_then(as_str) == Some("state")`
(`session_meta.rs:47`). -/
def isStateRecord (v : Json) : Bool :=
  match (jGet v "record_type").bind jAsStr with
  | some t => t = "state"
  | none => false

/-- Scanner state while walking the tail lines: the derived item counter
and the latest explicit `message_count`. -/
structure ScanState where
  count : Nat
  mc : Option Nat
deriving DecidableEq, Repr

/-- Permissive `message_count` extraction from a line that failed JSON
parsing but contains `"record_type":"state"` (`session_meta.rs:57-71`):
find `"message_count":`, take the following ASCII digits and parse them as
a `u32` (values out of `u32` range fail to parse and are discarded).  Only
runs when no explicit count was recorded yet. -/
def mcKey : List Char := "\"message_count\":".toList

def stateMarker : List Char := "\"record_type\":\"state\"".toList

def permissiveExtract (l : List Char) (mc : Option Nat) : Option Nat :=
  if mc.isSome then mc
  else
    match findSub mcKey l with
    | some i =>
      let start := i + mcKey.length
      let num := (l.drop start).takeWhile Char.isDigit
      if num.isEmpty then mc
      else if digitsToNat num < 2 ^ 32 then some (digitsToNat num) else mc
    | none => mc

/-- Processing of one tail line (`session_meta.rs:41-73`): trim; skip if
empty; if it parses as JSON, record `message_count` from a state record
(latest wins, cast `as u32`) or count it when it deserializes as a log
item; otherwise, if the raw text contains `"record_type":"state"`, run the
permissive extractor. -/
def scanLine (st : ScanState) (line : List Char) : ScanState :=
  let l := trimChars line
  if l.isEmpty then st
  else
    match jsonFromStr l.asString with
    | some v =>
      if isStateRecord v then
        match (jGet v "message_count").bind jAsU64 with
        | some n => { st with mc := some (n % 2 ^ 32) }
        | none => st
      else if isResponseItemJson v then { st with count := satAddOne st.count }
      else st
    | none =>
      if containsSub stateMarker l then
        { st with mc := permissiveExtract l st.mc }
      else st

/-- Model of Rust `str::lines`: split on `'\n'`, strip one trailing `'\r'`
per line, and yield no final empty line for a trailing newline. -/
def splitOnChar (c : Char) : List Char → List (List Char)
  | [] => [[]]
  | x :: xs =>
    let r := splitOnChar c xs
    if x = c then [] :: r
    else
      match r with
      | s :: t => (x :: s) :: t
      | [] => [[x]]

def dropTrailingCr (l : List Char) : List Char :=
  if l.getLast? = some '\r' then l.dropLast else l

def rustLines (s : List Char) : List (List Char) :=
  if s.isEmpty then []
  else
    let segs := splitOnChar '\n' s
    (if s.getLast? = some '\n' then segs.dropLast else segs).map dropTrailingCr

/-- The tail scan over the decoded window text (`session_meta.rs:40-77`):
fold `scanLine` over the lines; if no explicit `message_count` was seen,
fall back to the derived counter. -/
def tailScanText (text : List Char) : SessionStats :=
  let fin := (rustLines text).foldl scanLine ⟨0, none⟩
  match fin.mc with
  | some m => ⟨some m⟩
  | none => ⟨some fin.count⟩

/-- Model of `read_session_stats` (`session_meta.rs:15-78`).  `sidecar` and
`log` are the optional contents of `<log>.meta.json` and the log file.
Sidecar present and parsing as JSON → return its `message_count`
(`as_u64` then cast `as u32`) without touching the log.  Otherwise read
the log (failed read → `message_count = None`), take the last `maxBytes`
of it, and run the tail scan. -/
def read_session_stats (sidecar : Option String) (log : Option String)
    (maxBytes : Nat) : SessionStats :=
  match sidecar.bind (fun sc => (jsonFromStr sc).map (fun v => v)) with
  | some v => ⟨((jGet v "message_count").bind jAsU64).map (· % 2 ^ 32)⟩
  | none =>
    match log with
    | none => ⟨none⟩
    | some content =>
      let bytes := content.toList
      let slice :=
        if bytes.length > maxBytes then bytes.drop (bytes.length - maxBytes)
        else bytes
      tailScanText slice

/-! ## Status-line pipeline (`status_line.rs`)

`run_status_line_command` (`status_line.rs:189-231`) is embedded with the
child process abstracted into an outcome value; the JSON serialization of
`StatusLineInput` cannot fail for these types and is elided.  `stdout` is
the text after `String::from_utf8_lossy`, which is total (invalid bytes
are replaced, never rejected). -/

inductive ChildOutcome where
  | spawnFail
  | stdinWriteFail
  | waitFail
  | exited (success : Bool) (stdout : String) (stderrText : String)

/-- Model of `" ".repeat(padding)`. -/
def padSpaces (n : Nat) : String := (List.replicate n ' ').asString

/-- Model of `stdout.lines().next()` (`status_line.rs:225`). -/
def firstRustLine (s : String) : Option String :=
  (rustLines s.toList).head?.map List.asString

/-- Model of `run_status_line_command` (`status_line.rs:189-231`): empty
argv, spawn failure, a failed stdin write, a failed wait, or a non-zero
exit yield `None`; otherwise the **first** stdout line is taken, `None` if
it is blank after trimming, else it is returned prefixed by `padding`
spaces. -/
def run_status_line_command (command : List String) (outcome : ChildOutcome)
    (padding : Nat) : Option String :=
  match command with
  | [] => none
  | _ :: _ =>
    match outcome with
    | .spawnFail => none
    | .stdinWriteFail => none
    | .waitFail => none
    | .exited ok out _ =>
      if !ok then none
      else
        match firstRustLine out with
        | none => none
        | some l =>
          if (trimChars l.toList).isEmpty then none
          else some (padSpaces padding ++ l)

/-- Formalisation of the SPEC's words for the publication rule (spec §4.4:
"publishes `UpdateStatusLine{line}` where `line` is the first non-empty
stdout line prefixed by `padding` spaces"), for comparison with the code
model `run_status_line_command`. -/
def specPublishedLine (stdout : String) (padding : Nat) : Option String :=
  ((rustLines stdout.toList).find? (fun l => !l.isEmpty)).map
    (fun l => padSpaces padding ++ l.asString)

/-! ### Debounce worker (`status_line.rs:147-179`)

Discrete-time semantics of the worker task.  Time is in milliseconds; the
external command is modelled as instantaneous, and the worker is always
scheduled as soon as it is runnable.  `arrivals` is the time-stamped
stream of snapshots pushed through the unbounded channel (times strictly
increasing), each carrying a numeric payload identifying the snapshot;
after the last arrival the sender stays idle.  Output is the list of
`(time, payload)` command invocations / `UpdateStatusLine` publications
(one publication per invocation, `status_line.rs:170-171`). -/

/-- Model of `while let Ok(next) = update_rx.try_recv()` (`status_line.rs:174-176`):
drain every snapshot that has arrived by time `t` into the single
`pending` slot, last writer wins; return the new pending and the
untouched remainder of the stream. -/
def drainUpTo (t : Nat) (queue : List (Nat × Nat)) (pending : Option Nat) :
    Option Nat × List (Nat × Nat) :=
  match queue with
  | [] => (pending, [])
  | (a, p) :: rest => if a ≤ t then drainUpTo t rest (some p) else (pending, queue)

/-- The worker loop (`status_line.rs:153-178`).  State: current time,
`last_run`, the `pending` slot and the not-yet-received arrivals.  One
step: obtain the next input (from `pending`, else block in `recv` until
the next arrival; exit when neither exists), sleep until
`last_run + 300 ms` if needed, run the command and publish, set
`last_run`, then drain the channel.  Fuel bounds recursion; every step
consumes one input, so `arrivals.length + 1` fuel is never exhausted. -/
def statusWorker : Nat → Nat → Nat → Option Nat → List (Nat × Nat) →
    List (Nat × Nat)
  | 0, _, _, _, _ => []
  | fuel + 1, time, lastRun, pending, queue =>
    match pending with
    | some p =>
      let t1 := max time (lastRun + 300)
      let d := drainUpTo t1 queue none
      (t1, p) :: statusWorker fuel t1 t1 d.1 d.2
    | none =>
      match queue with
      | [] => []
      | (a, p) :: rest =>
        let t1 := max (max time a) (lastRun + 300)
        let d := drainUpTo t1 rest none
        (t1, p) :: statusWorker fuel t1 t1 d.1 d.2

/-- The worker as spawned by `StatusLineManager::new`
(`status_line.rs:147-151`): `last_run` starts `STATUS_LINE_MIN_INTERVAL`
before the spawn instant (`checked_sub` succeeding), so the first snapshot
is served without any debounce delay. -/
def statusLinePublications (spawnTime : Nat) (arrivals : List (Nat × Nat)) :
    List (Nat × Nat) :=
  statusWorker (arrivals.length + 1) spawnTime (spawnTime - 300) none arrivals

/-! ## Application controller (`app.rs:168-313`)

State machine for the history-buffer bookkeeping (`InsertHistoryLines`,
overlay lifecycle) and the commit-animation flag, as handled by the
serialized event loop. -/

inductive OverlayModel where
  | transcriptOv (lines : List String)
  | staticOv
deriving DecidableEq, Repr

/-- The controller state touched by `InsertHistoryLines` and the overlay
lifecycle: transcript buffer, terminal scrollback, deferred-history
buffer, and the optional overlay. -/
structure AppHistState where
  transcript : List String
  scrollback : List String
  deferred : List String
  overlay : Option OverlayModel
deriving DecidableEq, Repr

def initHistState : AppHistState := ⟨[], [], [], none⟩

inductive HistEvent where
  | insertLines (lines : List String)
  | openTranscriptOverlay
  | openStaticOverlay
  | closeOverlay
deriving DecidableEq, Repr

/-- One controller step on the history state.

`insertLines` is `AppEvent::InsertHistoryLines` (`app.rs:201-212`): mirror
into a transcript overlay if one is open, extend the transcript buffer,
then extend the deferred buffer when any overlay is active and the live
scrollback otherwise.  `openTranscriptOverlay` is Ctrl-T
(`app.rs:361-363`), `openStaticOverlay` is the `DiffResult` pager
(`app.rs:279-289`).

`closeOverlay` — Modelled from the spec: overlay closing lives in
`pager_overlay`/`app_backtrack`, outside this repository slice; per spec
§4.1.2 "Closing the overlay must flush the deferred-history buffer into
scrollback in original order and leave the alt screen". -/
def histStep (st : AppHistState) : HistEvent → AppHistState
  | .insertLines lines =>
    { transcript := st.transcript ++ lines
      scrollback := if st.overlay.isSome then st.scrollback else st.scrollback ++ lines
      deferred := if st.overlay.isSome then st.deferred ++ lines else st.deferred
      overlay :=
        match st.overlay with
        | some (.transcriptOv t) => some (.transcriptOv (t ++ lines))
        | o => o }
  | .openTranscriptOverlay => { st with overlay := some (.transcriptOv st.transcript) }
  | .openStaticOverlay => { st with overlay := some .staticOv }
  | .closeOverlay =>
    { st with overlay := none, scrollback := st.scrollback ++ st.deferred, deferred := [] }

/-- Commit-animation state: the shared `commit_anim_running` flag and the
number of ticker workers ever spawned. -/
structure CommitAnimState where
  running : Bool
  spawned : Nat
deriving DecidableEq, Repr

inductive CommitEvent where
  | start
  | stop
deriving DecidableEq, Repr

/-- Model of `StartCommitAnimation` / `StopCommitAnimation` as executed by the
serialized event loop (`app.rs:229-247`): Start performs
`compare_exchange(false, true)` and spawns a worker only on success; Stop
stores `false`. -/
def commitStep (st : CommitAnimState) : CommitEvent → CommitAnimState
  | .start =>
    if st.running then st else { running := true, spawned := st.spawned + 1 }
  | .stop => { st with running := false }

/-! ## Concrete collaborator instances used in counterexamples and
witnesses: a one-line markdown renderer, a user-prompt cell and a 20-line
markdown renderer. -/

def mdOne (s : String) : List String := [s]

def upOne (s : String) : List String := ["user", s]

def md20 (s : String) : List String := List.replicate 20 s

/-! ## Theorems -/

/-- C1 counterexample: the claim says an unpaired `FunctionCall` is still
rendered with a ✓ mark; but for the single entry
`FunctionCall{name:"server__echo", call_id:"c1"}` — which has no
`FunctionCallOutput` sharing its `call_id` — the resumed-history walk
emits no lines at all (the `if let Some(payload)` at `app.rs:555` fails
and the item falls through every later arm). -/
theorem unpairedFunctionCallEmitsNothing :
    renderWalk mdOne upOne [.functionCall "server__echo" "" "c1"] = .ok [] ∧
      outputsByCall [.functionCall "server__echo" "" "c1"] "c1" = none :=
  ⟨rfl, rfl⟩

/-- C1 (amended): an unpaired `LocalShellCall{Exec}` entry is rendered
with `success = true` assumed (a ✓ mark, `app.rs:577-602`), while an
unpaired `FunctionCall` entry is not rendered at all (`app.rs:536-569`
emits only when an output exists for the `call_id`). -/
theorem unpairedCallsRendering (md up : String → List String)
    (entries : List ResponseItem) (name args cid : String)
    (cidOpt : Option String) (cmd : List String) :
    (outputsByCall entries cid = none →
      renderItem md up (outputsByCall entries) (.functionCall name args cid) =
        .ok []) ∧
    (cidOpt.bind (outputsByCall entries) = none →
      renderItem md up (outputsByCall entries)
          (.localShellCall cidOpt (.exec cmd)) =
        .ok ["", "  ✓ ⌨️ " ++ String.intercalate " " cmd]) := by
  constructor
  · intro h
    simp [renderItem, h]
  · intro h
    simp [renderItem, h, Option.getD]

/-- C1 witness: the amended statement evaluated on a one-entry history
with an unpaired tool call and on an unpaired exec call. -/
theorem unpairedCallsRenderingInstance :
    renderItem mdOne upOne (outputsByCall [.functionCall "server__echo" "" "c1"])
        (.functionCall "server__echo" "" "c1") = .ok [] ∧
      renderItem mdOne upOne (outputsByCall [.functionCall "server__echo" "" "c1"])
          (.localShellCall (some "e9") (.exec ["echo", "hi"])) =
        .ok ["", "  ✓ ⌨️ echo hi"] := by
  have h := unpairedCallsRendering mdOne upOne
    [.functionCall "server__echo" "" "c1"] "server__echo" "" "c1" (some "e9")
    ["echo", "hi"]
  exact ⟨h.1 rfl, h.2 rfl⟩

/-- C3 counterexample: for the paired entries
`[FunctionCall{name:"server__echo", call_id:"c1"},
FunctionCallOutput{call_id:"c1", content:"hello"}]` the claim says the
pair yields exactly the `tool` line with no separate codex/markdown block
for the output; but the walk re-visits the `FunctionCallOutput` as its own
entry (`app.rs:605-612` ignores pairing) and emits a blank line, the
`"codex"` header and the markdown of its content as well. -/
theorem pairedOutputStillEmitsCodexBlock :
    renderWalk mdOne upOne
        [.functionCall "server__echo" "a" "c1",
         .functionCallOutput "c1" ⟨"hello", some true⟩] =
      .ok ["", "tool server/echo ✓", "", "codex", "hello"] := rfl

/-- C3 (amended): a `FunctionCall` whose `call_id` has an output emits
exactly one `"tool <server>/<tool> <mark>"` line (`app.rs:555-567`), and
every `FunctionCallOutput` entry with non-empty content — paired or not —
additionally emits a blank line, the `"codex"` header and the markdown of
its content (`app.rs:605-612`); an empty-content output emits nothing. -/
theorem functionCallPairRendering (md up : String → List String)
    (outputs : String → Option FunctionCallOutputPayload)
    (cid name args : String) (out : FunctionCallOutputPayload) :
    (outputs cid = some out →
      renderItem md up outputs (.functionCall name args cid) =
        .ok ["", "tool " ++ (splitServerTool name).1 ++ "/" ++
          (splitServerTool name).2 ++ " " ++
          (if out.success.getD true then "✓" else "✗")]) ∧
    (out.content ≠ "" →
      renderItem md up outputs (.functionCallOutput cid out) =
        .ok (["", "codex"] ++ md out.content)) ∧
    (out.content = "" →
      renderItem md up outputs (.functionCallOutput cid out) = .ok []) := by
  refine ⟨fun h => ?_, fun h => ?_, fun h => ?_⟩
  · simp [renderItem, h]
  · simp [renderItem, String.isEmpty_iff, h]
  · simp [renderItem, String.isEmpty_iff, h]

/-- C3 witness: the amended statement evaluated on the concrete pair from
the counterexample. -/
theorem functionCallPairRenderingInstance :
    renderItem mdOne upOne
        (outputsByCall [.functionCall "server__echo" "a" "c1",
          .functionCallOutput "c1" ⟨"hello", some true⟩])
        (.functionCall "server__echo" "a" "c1") =
      .ok ["", "tool server/echo ✓"] ∧
    renderItem mdOne upOne
        (outputsByCall [.functionCall "server__echo" "a" "c1",
          .functionCallOutput "c1" ⟨"hello", some true⟩])
        (.functionCallOutput "c1" ⟨"hello", some true⟩) =
      .ok ["", "codex", "hello"] := by
  have h := functionCallPairRendering mdOne upOne
    (outputsByCall [.functionCall "server__echo" "a" "c1",
      .functionCallOutput "c1" ⟨"hello", some true⟩])
    "c1" "server__echo" "a" ⟨"hello", some true⟩
  exact ⟨h.1 rfl, h.2.1 (by decide)⟩

/-- C7: a non-user message whose markdown rendering produces more than 18
lines keeps exactly the first 18 and gains exactly one
`"… truncated; press Ctrl-T for full transcript"` line; a rendering of at
most 18 lines is emitted unmodified (`app.rs:516-531`). -/
theorem messageTruncation (md up : String → List String)
    (outputs : String → Option FunctionCallOutputPayload) (role : String)
    (content : List ContentItem) (t : String)
    (hstrip : stripWrappersR (concatContent content) = .ok t)
    (ht : t.isEmpty = false) (hrole : role ≠ "user") :
    ((md t).length > maxLines →
      renderItem md up outputs (.message role content) =
        .ok (["", "codex"] ++ (md t).take maxLines ++ [truncationNote])) ∧
    ((md t).length ≤ maxLines →
      renderItem md up outputs (.message role content) =
        .ok (["", "codex"] ++ md t)) := by
  constructor
  · intro hlen
    simp [renderItem, hstrip, ht, hrole, hlen]
  · intro hlen
    simp [renderItem, hstrip, ht, hrole, Nat.not_lt.mpr hlen]

/-- C7 witness: a 20-line markdown rendering is truncated to 18 lines
plus the note; a 1-line rendering is kept as-is. -/
theorem messageTruncationInstance :
    renderItem md20 upOne (outputsByCall []) (.message "assistant" [.outputText "x"]) =
      .ok (["", "codex"] ++ List.replicate 18 "x" ++ [truncationNote]) ∧
    renderItem mdOne upOne (outputsByCall []) (.message "assistant" [.outputText "x"]) =
      .ok ["", "codex", "x"] := by
  constructor
  · have h := (messageTruncation md20 upOne (outputsByCall []) "assistant"
      [.outputText "x"] "x" rfl rfl (by decide)).1 (by decide)
    rw [h]; rfl
  · have h := (messageTruncation mdOne upOne (outputsByCall []) "assistant"
      [.outputText "x"] "x" rfl rfl (by decide)).2 (by decide)
    rw [h]; rfl

/-- C10: the claim says `strip_wrappers` never panics, in particular when
a closing `</user_instructions>` tag occurs before the opening tag; but on
`"</user_instructions> <user_instructions>"` the opening tag is found at
byte 21 and the closing tag at byte 0, so `&t[40..0]` panics
(`app.rs:650`). -/
theorem stripWrappersPanics :
    stripWrappersR "</user_instructions> <user_instructions>" = .panicked := by
  decide

/-- A 54-character one-line log whose 40-byte tail window starts mid-line:
the window text is `"record_type":"state","message_count":7}`. -/
def fileC5 : String :=
  "\x7b\"pad\":\"xxxx\",\"record_type\":\"state\",\"message_count\":7\x7d"

/-- C5 counterexample: the claim says the truncated partial line at the
head of the tail window is silently discarded (not counted, not fed to
the permissive extractor), which would leave the derived counter at 0 and
yield `Some 0`; but on `fileC5` with `max_bytes = 40` — a window that
starts mid-line — the partial line fails JSON parsing, still contains
`"record_type":"state"`, and the permissive extractor is run on it
(`session_meta.rs:57-71`), yielding `Some 7`. -/
theorem truncatedHeadLineIsExtracted :
    read_session_stats none (some fileC5) 40 = ⟨some 7⟩ ∧
      40 < fileC5.length := ⟨rfl, by decide⟩

/-- C5 (amended): the tail window's head partial line receives no special
treatment: any non-empty line of the window that fails JSON parsing and
still contains `"record_type":"state"` is fed to the permissive
`message_count` extractor (`session_meta.rs:57-71`), so a window starting
mid-line inside a state record still produces its count (`fileC5` at
`max_bytes = 40` yields `Some 7`). -/
theorem fragmentFedToExtractor :
    (∀ (st : ScanState) (l : List Char),
      trimChars l ≠ [] →
      jsonFromStr (trimChars l).asString = none →
      containsSub stateMarker (trimChars l) = true →
      scanLine st l = { st with mc := permissiveExtract (trimChars l) st.mc }) ∧
    read_session_stats none (some fileC5) 40 = ⟨some 7⟩ := by
  refine ⟨fun st l hne hjson hmark => ?_, rfl⟩
  simp [scanLine, hne, hjson, hmark]

/-- C5 witness: the amended statement applied to the concrete 40-byte
window fragment of `fileC5`. -/
theorem fragmentFedToExtractorInstance :
    scanLine ⟨0, none⟩ "\"record_type\":\"state\",\"message_count\":7\x7d".toList =
      ⟨0, some 7⟩ := by
  have h := fragmentFedToExtractor.1 ⟨0, none⟩
    "\"record_type\":\"state\",\"message_count\":7\x7d".toList (by decide) rfl (by decide)
  rw [h]; rfl

/-- C6: when the sidecar content parses as JSON, `read_session_stats`
returns the `message_count` taken from it (`as_u64`, cast to `u32`) and
never reads the log (`session_meta.rs:16-26`): the result is one and the
same for every log content. -/
theorem sidecarShortCircuits (sc : String) (log : Option String)
    (maxBytes : Nat) (v : Json) (h : jsonFromStr sc = some v) :
    read_session_stats (some sc) log maxBytes =
      ⟨((jGet v "message_count").bind jAsU64).map (· % 2 ^ 32)⟩ := by
  simp [read_session_stats, h]

/-- C6 witness: a sidecar `{"message_count":42}` yields `Some 42` even
over a log whose own tail scan would give a different answer. -/
theorem sidecarShortCircuitsInstance :
    read_session_stats (some "\x7b\"message_count\":42\x7d") (some fileC5) 40 =
      ⟨some 42⟩ := by
  have h := sidecarShortCircuits "\x7b\"message_count\":42\x7d" (some fileC5) 40
    (.jobj [("message_count".toList, .jnum false 42 true)]) rfl
  rw [h]; rfl

/-- C4 counterexample: the claim says that apart from the listed failures
the published line is the first **non-empty** stdout line padded; but for
stdout `"\nhello"` the code takes `lines().next()` — the empty first line
— finds it blank and publishes `None` (`status_line.rs:225-228`), while
the spec's rule would publish `"  hello"`. -/
theorem firstBlankLineYieldsNone :
    run_status_line_command ["c"] (.exited true "\nhello" "") 2 = none ∧
      specPublishedLine "\nhello" 2 = some "  hello" := ⟨rfl, rfl⟩

/-- C4 (amended): spawn failure, a failed stdin write, a failed wait, or
a non-zero exit publish `None`; with a zero exit the **first** stdout
line alone decides: missing (empty stdout) or blank after trimming →
`None`, otherwise that line prefixed by exactly `padding` spaces — later
non-empty lines are never consulted, and non-UTF-8 stdout is decoded
lossily rather than rejected (`run_status_line_command`,
`status_line.rs:189-231`). -/
theorem statusCommandPublication (cmd : List String) (c0 : String)
    (padding : Nat) (out err : String) :
    (run_status_line_command (c0 :: cmd) .spawnFail padding = none) ∧
    (run_status_line_command (c0 :: cmd) .stdinWriteFail padding = none) ∧
    (run_status_line_command (c0 :: cmd) .waitFail padding = none) ∧
    (run_status_line_command (c0 :: cmd) (.exited false out err) padding = none) ∧
    (firstRustLine out = none →
      run_status_line_command (c0 :: cmd) (.exited true out err) padding = none) ∧
    (∀ l, firstRustLine out = some l → trimChars l.toList = [] →
      run_status_line_command (c0 :: cmd) (.exited true out err) padding = none) ∧
    (∀ l, firstRustLine out = some l → trimChars l.toList ≠ [] →
      run_status_line_command (c0 :: cmd) (.exited true out err) padding =
        some (padSpaces padding ++ l)) := by
  refine ⟨rfl, rfl, rfl, by simp [run_status_line_command],
    fun h => ?_, fun l h hb => ?_, fun l h hb => ?_⟩
  · simp [run_status_line_command, h]
  · have hb' : trimChars l.data = [] := hb
    simp [run_status_line_command, h, hb']
  · have hb' : ¬trimChars l.data = [] := hb
    simp [run_status_line_command, h, hb']

/-- C4 witness: the amended publication rule evaluated on a run whose
stdout is `"hi there\nmore"` with padding 3. -/
theorem statusCommandPublicationInstance :
    run_status_line_command ["c"] (.exited true "hi there\nmore" "") 3 =
      some "   hi there" := by
  have h := (statusCommandPublication [] "c" 3 "hi there\nmore" "").2.2.2.2.2.2
    "hi there" rfl (by decide)
  rw [h]; rfl

/-! ### Debounce-worker lemmas -/

/-- Publication-time discipline: every publication is at least 300 ms
after the given instant, and successive publications are at least
300 ms apart. -/
def gapOK : Nat → List (Nat × Nat) → Prop
  | _, [] => True
  | lr, (t, _) :: rest => lr + 300 ≤ t ∧ gapOK t rest

/-- The latest snapshot of a worker configuration: the payload of the
last queued arrival if any, else the pending slot. -/
def lastPending (queue : List (Nat × Nat)) (pending : Option Nat) : Option Nat :=
  match queue.getLast? with
  | some q => some q.2
  | none => pending

def pendWeight : Option Nat → Nat
  | some _ => 1
  | none => 0

theorem lastPending_cons (a p : Nat) (rest : List (Nat × Nat))
    (pending : Option Nat) :
    lastPending ((a, p) :: rest) pending = lastPending rest (some p) := by
  unfold lastPending
  cases rest with
  | nil => rfl
  | cons b l =>
    rw [List.getLast?_cons_cons]
    cases h : (b :: l).getLast? with
    | some y => rfl
    | none =>
      rw [List.getLast?_eq_none_iff] at h
      cases h

theorem lastPending_some_isSome (rest : List (Nat × Nat)) :
    ∀ p : Nat, (lastPending rest (some p)).isSome := by
  induction rest with
  | nil => intro p; rfl
  | cons hd tl ih =>
    intro p
    obtain ⟨a, q⟩ := hd
    rw [lastPending_cons]
    exact ih q

theorem drainUpTo_lastPending (t : Nat) (queue : List (Nat × Nat)) :
    ∀ pending : Option Nat,
      lastPending (drainUpTo t queue pending).2 (drainUpTo t queue pending).1 =
        lastPending queue pending := by
  induction queue with
  | nil => intro pending; rfl
  | cons hd rest ih =>
    obtain ⟨a, p⟩ := hd
    intro pending
    by_cases hle : a ≤ t
    · simp only [drainUpTo, if_pos hle]
      rw [ih (some p), lastPending_cons]
    · simp only [drainUpTo, if_neg hle]

theorem drainUpTo_measure (t : Nat) (queue : List (Nat × Nat)) :
    ∀ pending : Option Nat,
      (drainUpTo t queue pending).2.length +
          pendWeight (drainUpTo t queue pending).1 ≤
        queue.length + pendWeight pending := by
  induction queue with
  | nil => intro pending; simp [drainUpTo]
  | cons hd rest ih =>
    obtain ⟨a, p⟩ := hd
    intro pending
    by_cases hle : a ≤ t
    · simp only [drainUpTo, if_pos hle]
      have h := ih (some p)
      simp only [pendWeight, List.length_cons] at h ⊢
      omega
    · simp only [drainUpTo, if_neg hle]
      exact Nat.le_refl _

theorem statusWorker_none_nil (fuel time lastRun : Nat) :
    statusWorker fuel time lastRun none [] = [] := by
  cases fuel <;> rfl

/-- The worker's publication gap discipline: from any configuration, the
first publication is at least 300 ms after `lastRun` and successive
publications are at least 300 ms apart. -/
theorem statusWorker_gap (fuel : Nat) : ∀ (time lastRun : Nat)
    (pending : Option Nat) (queue : List (Nat × Nat)),
    gapOK lastRun (statusWorker fuel time lastRun pending queue) := by
  induction fuel with
  | zero => intro time lr pending queue; trivial
  | succ f ih =>
    intro time lr pending queue
    cases pending with
    | some p => exact ⟨Nat.le_max_right _ _, ih _ _ _ _⟩
    | none =>
      cases queue with
      | nil => trivial
      | cons hd rest =>
        obtain ⟨a, p⟩ := hd
        exact ⟨Nat.le_max_right _ _, ih _ _ _ _⟩

theorem getLast?_cons_or {α : Type} (x : α) (l : List α) :
    (x :: l).getLast? = (l.getLast?).or (some x) := by
  cases l with
  | nil => rfl
  | cons b t =>
    rw [List.getLast?_cons_cons]
    cases h : (b :: t).getLast? with
    | some y => rfl
    | none =>
      rw [List.getLast?_eq_none_iff] at h
      cases h

/-- One publishing step preserves the "latest snapshot is published last"
property, given the induction hypothesis for the remaining fuel. -/
theorem statusWorker_step_last (f : Nat)
    (ih : ∀ (time lastRun : Nat) (pending : Option Nat)
      (queue : List (Nat × Nat)),
      queue.length + pendWeight pending < f →
      ((statusWorker f time lastRun pending queue).getLast?).map Prod.snd =
        lastPending queue pending)
    (t1 p : Nat) (queue : List (Nat × Nat)) (hlen : queue.length < f) :
    (((t1, p) ::
        statusWorker f t1 t1 (drainUpTo t1 queue none).1
          (drainUpTo t1 queue none).2).getLast?).map Prod.snd =
      lastPending queue (some p) := by
  have hmeas := drainUpTo_measure t1 queue none
  simp only [pendWeight, Nat.add_zero] at hmeas
  have hrec := ih t1 t1 (drainUpTo t1 queue none).1 (drainUpTo t1 queue none).2
    (Nat.lt_of_le_of_lt hmeas hlen)
  rw [getLast?_cons_or]
  cases queue with
  | nil =>
    simp only [drainUpTo, statusWorker_none_nil]
    rfl
  | cons q0 qs =>
    obtain ⟨a0, p0⟩ := q0
    have hQ : lastPending ((a0, p0) :: qs) (some p) =
        lastPending ((a0, p0) :: qs) none := by
      rw [lastPending_cons, lastPending_cons]
    rw [hQ, ← drainUpTo_lastPending t1 ((a0, p0) :: qs) none, ← hrec]
    cases hl : (statusWorker f t1 t1 (drainUpTo t1 ((a0, p0) :: qs) none).1
        (drainUpTo t1 ((a0, p0) :: qs) none).2).getLast? with
    | some z => rfl
    | none =>
      exfalso
      rw [hl] at hrec
      have hs := lastPending_some_isSome qs p0
      rw [← lastPending_cons a0 p0 qs none,
        ← drainUpTo_lastPending t1 ((a0, p0) :: qs) none, ← hrec] at hs
      cases hs

/-- The payload of the worker's last publication is the latest snapshot
of the starting configuration. -/
theorem statusWorker_lastPub (fuel : Nat) : ∀ (time lastRun : Nat)
    (pending : Option Nat) (queue : List (Nat × Nat)),
    queue.length + pendWeight pending < fuel →
    ((statusWorker fuel time lastRun pending queue).getLast?).map Prod.snd =
      lastPending queue pending := by
  induction fuel with
  | zero => intro _ _ _ _ h; exact absurd h (Nat.not_lt_zero _)
  | succ f ih =>
    intro time lr pending queue hm
    cases pending with
    | some p =>
      simp only [pendWeight] at hm
      exact statusWorker_step_last f ih _ p queue (by omega)
    | none =>
      cases queue with
      | nil => rfl
      | cons hd rest =>
        obtain ⟨a, p⟩ := hd
        simp only [pendWeight, List.length_cons, Nat.add_zero] at hm
        rw [show statusWorker (f + 1) time lr none ((a, p) :: rest) =
          (max (max time a) (lr + 300), p) ::
            statusWorker f (max (max time a) (lr + 300))
              (max (max time a) (lr + 300))
              (drainUpTo (max (max time a) (lr + 300)) rest none).1
              (drainUpTo (max (max time a) (lr + 300)) rest none).2 from rfl]
        rw [statusWorker_step_last f ih _ p rest (by omega), lastPending_cons]

theorem lastPending_none (queue : List (Nat × Nat)) :
    lastPending queue none = queue.getLast?.map Prod.snd := by
  unfold lastPending
  cases queue.getLast? <;> rfl

/-- C2 counterexample: the claim says three snapshots arriving within
10 ms (at 1000/1005/1010 ms, worker spawned at 1000 ms with no prior
recent run) cause exactly one command invocation, with the third snapshot;
but `last_run` is initialized 300 ms in the past
(`status_line.rs:148-150`), so the first snapshot is served immediately
and the worker publishes three times — at 1000 ms with snapshot 1, at
1300 ms with snapshot 2 and at 1600 ms with snapshot 3 — never once, and
the first invocation carries the first snapshot, not the third. -/
theorem threeSnapshotsNotOnce :
    statusLinePublications 1000 [(1000, 1), (1005, 2), (1010, 3)] =
      [(1000, 1), (1300, 2), (1600, 3)] ∧
    (statusLinePublications 1000 [(1000, 1), (1005, 2), (1010, 3)]).map
        Prod.snd ≠ [3] :=
  ⟨rfl, by decide⟩

/-- C2 (amended): the first snapshot after a quiet period is served
immediately and each later invocation waits out the 300 ms window, so
three snapshots within 10 ms yield one invocation per snapshot — the
first with the first snapshot — rather than a single invocation with the
third; in general successive publications (each carrying one
`UpdateStatusLine`) are at least 300 ms apart, and the last publication
always carries the latest snapshot of the arrival stream. -/
theorem debounceDiscipline (spawnTime : Nat) (arrivals : List (Nat × Nat)) :
    (statusLinePublications 1000 [(1000, 1), (1005, 2), (1010, 3)] =
      [(1000, 1), (1300, 2), (1600, 3)]) ∧
    gapOK (spawnTime - 300) (statusLinePublications spawnTime arrivals) ∧
    ((statusLinePublications spawnTime arrivals).getLast?).map Prod.snd =
      arrivals.getLast?.map Prod.snd := by
  refine ⟨rfl, statusWorker_gap _ _ _ _ _, ?_⟩
  rw [statusLinePublications, statusWorker_lastPub, lastPending_none]
  simp [pendWeight]

/-- Controller history invariant: the transcript is the scrollback
followed by the deferred lines, and the deferred buffer is empty whenever
no overlay is active. -/
def histInv (st : AppHistState) : Prop :=
  st.transcript = st.scrollback ++ st.deferred ∧
    (st.overlay = none → st.deferred = [])

theorem histStep_inv (st : AppHistState) (e : HistEvent) (h : histInv st) :
    histInv (histStep st e) := by
  obtain ⟨h1, h2⟩ := h
  cases e with
  | insertLines lines =>
    cases ho : st.overlay with
    | none =>
      refine ⟨?_, fun _ => ?_⟩
      · simp [histStep, ho, h1, h2 ho]
      · simp [histStep, ho, h2 ho]
    | some ov =>
      refine ⟨?_, fun hc => ?_⟩
      · cases ov <;> simp [histStep, ho, h1]
      · cases ov <;> simp [histStep, ho] at hc
  | openTranscriptOverlay => exact ⟨h1, fun hc => by simp [histStep] at hc⟩
  | openStaticOverlay => exact ⟨h1, fun hc => by simp [histStep] at hc⟩
  | closeOverlay => exact ⟨by simp [histStep, h1], fun _ => rfl⟩

theorem foldl_histInv (events : List HistEvent) : ∀ (st : AppHistState),
    histInv st → histInv (events.foldl histStep st) := by
  induction events with
  | nil => intro st h; exact h
  | cons e rest ih =>
    intro st h
    exact ih (histStep st e) (histStep_inv st e h)

theorem foldl_start_running (n : Nat) : ∀ (st : CommitAnimState),
    st.running = true →
    (List.replicate n CommitEvent.start).foldl commitStep st = st := by
  induction n with
  | zero => intro st _; rfl
  | succ m ih =>
    intro st h
    rw [List.replicate_succ, List.foldl_cons,
      show commitStep st .start = st from by simp [commitStep, h]]
    exact ih st h

/-- C8: interleaved arbitrarily with overlay opening and closing, every
`InsertHistoryLines` event appends its lines to the transcript buffer and
to exactly one of live scrollback (no overlay) or the deferred buffer
(overlay active), so from a fresh session the transcript buffer always
equals scrollback followed by the deferred lines, in arrival order
(`app.rs:201-212` and the overlay lifecycle). -/
theorem historyConservation (events : List HistEvent) :
    ((events.foldl histStep initHistState).transcript =
      (events.foldl histStep initHistState).scrollback ++
        (events.foldl histStep initHistState).deferred) ∧
    (∀ (st : AppHistState) (lines : List String),
      (histStep st (.insertLines lines)).transcript = st.transcript ++ lines ∧
      (histStep st (.insertLines lines)).scrollback =
        (if st.overlay.isSome then st.scrollback else st.scrollback ++ lines) ∧
      (histStep st (.insertLines lines)).deferred =
        (if st.overlay.isSome then st.deferred ++ lines else st.deferred)) := by
  refine ⟨(foldl_histInv events initHistState ⟨rfl, fun _ => rfl⟩).1,
    fun st lines => ⟨rfl, rfl, rfl⟩⟩

/-- C9: `StartCommitAnimation` spawns a worker only on a successful
`false → true` compare-and-set of `commit_anim_running`
(`app.rs:229-243`); in any run of Start events with no intervening Stop,
only the first Start spawns (one worker total), so Start is idempotent. -/
theorem commitStartIdempotent (st : CommitAnimState) (n k : Nat) :
    (commitStep st .start =
      if st.running then st
      else { running := true, spawned := st.spawned + 1 }) ∧
    ((List.replicate (n + 1) CommitEvent.start).foldl commitStep
        ⟨false, k⟩ = ⟨true, k + 1⟩) := by
  refine ⟨rfl, ?_⟩
  rw [List.replicate_succ, List.foldl_cons]
  exact foldl_start_running n ⟨true, k + 1⟩ rfl

end Codex
